import Mathlib

/-!
Verification of the PixPen segmentation-mask pipeline.

This file gives a shallow embedding, in Lean, of the parts of the
repository that the verified claims are about:

* `src/services/segmentationService.ts` — the box validator
  (`isValidNormalizedBox`), the response parser
  (`parseSegmentationResponse` and `stripMarkdownFence`), the
  post-response object construction of `segmentImage`, and the mask
  aligner (`alignMasksToOriginal`).
* `App.tsx` — the mask compositor (`combineMaskFiles`) and the
  selection toggle (`onToggleObject`).
* `ObjectSelectCanvas` — the hit test of `handleClick` and
  `calculateBoxArea`.

Modelling conventions.  JavaScript numbers are modelled as exact
rationals, extended with `NaN` and the two infinities where finiteness
checks matter (`JSNum`).  Browser primitives that are not part of the
repository (the canvas resampling performed by `drawImage`, PNG
encoding by `toDataURL`/`toBlob`, base64 decoding by `atob`, JSON
parsing by `JSON.parse`, and the regex engine behind the fallback
extractor) are passed in as explicit function parameters, so every
theorem quantifies over the host behaviour it does not depend on.
Encoded image payloads (data URLs, `File` blobs) are carried together
with their decoded pixel raster, since decoding is a host primitive.
`Promise.all` over the per-object alignment operations is modelled as
left-to-right fail-fast sequencing: the joined batch succeeds exactly
when every sub-operation succeeds, and otherwise fails with the error
of a failing sub-operation.
-/

namespace PixPen

/-- Model of a JavaScript number: an exact rational, `NaN`, or one of
the two infinities.  (Floating-point rounding is not modelled; the
pipeline only compares and linearly transforms these values.) -/
inductive JSNum where
  | num (q : ℚ)
  | nan
  | posInf
  | negInf
deriving DecidableEq

/-- JavaScript `Number.isFinite`. -/
def JSNum.isFinite : JSNum → Bool
  | .num _ => true
  | _ => false

/-- The JavaScript `<` comparison on numbers: any comparison involving
`NaN` is false; the infinities compare in the usual way. -/
def JSNum.lt : JSNum → JSNum → Bool
  | .num a, .num b => a < b
  | .num _, .posInf => true
  | .negInf, .num _ => true
  | .negInf, .posInf => true
  | _, _ => false

/-- `isValidNormalizedBox` (segmentationService.ts, lines 214–222):
a candidate box is usable when it has exactly four entries, all
finite, none below 0 or above 1000, and `ymin < ymax`, `xmin < xmax`. -/
def isValidNormalizedBox (box : List JSNum) : Bool :=
  match box with
  | [ymin, xmin, ymax, xmax] =>
    if [ymin, xmin, ymax, xmax].any
        (fun v => !v.isFinite || v.lt (.num 0) || (JSNum.num 1000).lt v) then
      false
    else
      ymin.lt ymax && xmin.lt xmax
  | _ => false

/-- One RGBA pixel; channels range over 0–255 in every raster this
development builds. -/
structure Pixel where
  r : ℕ
  g : ℕ
  b : ℕ
  a : ℕ
deriving DecidableEq

/-- A decoded image buffer: pixel dimensions plus the pixel at each
coordinate (out-of-range coordinates are irrelevant to every claim). -/
structure Raster where
  width : ℕ
  height : ℕ
  data : ℕ → ℕ → Pixel

/-- A JavaScript `File` holding an encoded image: its metadata, its
encoded bytes, and the pixel raster the host decodes it to. -/
structure JsFile where
  name : String
  type : String
  bytes : List ℕ
  raster : Raster

/-- An `HTMLImageElement` as produced by `loadImage`: natural
(intrinsic) dimensions and element dimensions. -/
structure HTMLImage where
  naturalWidth : ℕ
  naturalHeight : ℕ
  width : ℕ
  height : ℕ

/-- The `SegmentObject` of `types/segmentation`: identifier, the
normalized `[ymin, xmin, ymax, xmax]` box, the mask image (the decoded
content of the mask data URL), the mask `File`, and an optional
label. -/
structure SegmentObject where
  id : String
  box : ℚ × ℚ × ℚ × ℚ
  mask : Raster
  maskFile : JsFile
  label : Option String

/-- The host primitives the pipeline delegates to: `resample src w h i j`
is pixel `(i, j)` of the browser drawing `src` scaled to `w × h`
(`ctx.drawImage(src, 0, 0, w, h)`), and `encodePng` is the PNG byte
encoding produced by `canvas.toBlob`/`toDataURL`.  Both are outside the
repository, so every theorem quantifies over them. -/
structure CanvasHost where
  resample : Raster → ℕ → ℕ → ℕ → ℕ → Pixel
  encodePng : Raster → List ℕ

/-- JavaScript `Math.round`: round half toward positive infinity. -/
def jsRound (q : ℚ) : ℤ := ⌊q + 1 / 2⌋

/-- `DEFAULT_MASK_THRESHOLD` (segmentationService.ts, line 63). -/
def DEFAULT_MASK_THRESHOLD : ℕ := 127

/-- A box in target pixel coordinates: origin and size. -/
structure PixelBox where
  x : ℤ
  y : ℤ
  w : ℤ
  h : ℤ
deriving DecidableEq

/-- The normalized-to-pixel conversion of `alignMasksToOriginal`
(lines 305–309): origin `x`, `y` and box width `w`, height `h` in
target pixels (`pixel = round(normalized / 1000 * targetDimension)`),
with width and height floored at 1. -/
def pixelBox (targetWidth targetHeight : ℕ) (obj : SegmentObject) : PixelBox :=
  let (ymin, xmin, ymax, xmax) := obj.box
  { x := jsRound (xmin / 1000 * targetWidth),
    y := jsRound (ymin / 1000 * targetHeight),
    w := max 1 (jsRound ((xmax - xmin) / 1000 * targetWidth)),
    h := max 1 (jsRound ((ymax - ymin) / 1000 * targetHeight)) }

/-- The binarization of one pixel (lines 330–341): channel average
above the fixed threshold gives fully opaque white, anything else
fully transparent black. -/
def binarizePixel (p : Pixel) : Pixel :=
  if ((p.r + p.g + p.b : ℚ)) / 3 > (DEFAULT_MASK_THRESHOLD : ℚ) then
    ⟨255, 255, 255, 255⟩
  else
    ⟨0, 0, 0, 0⟩

/-- The `getImageData` / per-pixel loop / `putImageData` step of the
aligner: every pixel of the buffer is replaced by its binarized value;
the buffer dimensions are untouched. -/
def binarizeRaster (m : Raster) : Raster :=
  { m with data := fun i j => binarizePixel (m.data i j) }

/-- A fresh canvas of the given size after `fillStyle = '#000'` and a
full `fillRect`: every pixel opaque black. -/
def blackCanvas (w h : ℕ) : Raster :=
  { width := w, height := h, data := fun _ _ => ⟨0, 0, 0, 255⟩ }

/-- The canvas rendered by `ctx.drawImage(src, 0, 0, w, h)` into a
`w × h` canvas: dimensions fixed by the canvas, content given by the
host resampler. -/
def drawScaledToCanvas (host : CanvasHost) (src : Raster) (w h : ℕ) : Raster :=
  { width := w, height := h, data := fun i j => host.resample src w h i j }

/-- Source-over compositing of one source pixel onto a destination
pixel, for the binary-alpha buffers this pipeline produces: a fully
transparent source pixel leaves the destination, any other source
pixel replaces it. -/
def sourceOverPixel (s d : Pixel) : Pixel :=
  if s.a = 0 then d else s

/-- `ctx.drawImage(src, x, y)`: paint `src` at integer offset
`(x, y)` onto `dest`, clipped to the destination, leaving destination
pixels outside the painted region untouched. -/
def drawImageAt (dest src : Raster) (x y : ℤ) : Raster :=
  { dest with data := fun i j =>
      if x ≤ (i : ℤ) ∧ (i : ℤ) < x + src.width ∧ y ≤ (j : ℤ) ∧ (j : ℤ) < y + src.height then
        sourceOverPixel (src.data ((i : ℤ) - x).toNat ((j : ℤ) - y).toNat) (dest.data i j)
      else
        dest.data i j }

/-- The body of the per-object callback of `alignMasksToOriginal`
(lines 302–374): convert the normalized box to target pixels, reject
when the rounded origin lies outside the canvas, scale the box-local
mask to the box footprint, binarize it, and composite it onto a black
full-size canvas; only the `mask` and `maskFile` fields of the object
are replaced.  The output `File` keeps the input file name, falling
back to an index-derived name. -/
def alignOne (host : CanvasHost) (targetWidth targetHeight : ℕ) (index : ℕ)
    (obj : SegmentObject) : Except String SegmentObject :=
  let maskImg := obj.maskFile.raster
  let pb := pixelBox targetWidth targetHeight obj
  if pb.x ≥ (targetWidth : ℤ) ∨ pb.y ≥ (targetHeight : ℤ) ∨ pb.w ≤ 0 ∨ pb.h ≤ 0 then
    Except.error ("Invalid mask bounding box: " ++ obj.id)
  else
    let maskCanvas := drawScaledToCanvas host maskImg pb.w.toNat pb.h.toNat
    let binarized := binarizeRaster maskCanvas
    let composed := drawImageAt (blackCanvas targetWidth targetHeight) binarized pb.x pb.y
    let scaledFileName :=
      if obj.maskFile.name ≠ "" then obj.maskFile.name
      else "mask_" ++ toString index ++ ".png"
    Except.ok { obj with
      mask := composed,
      maskFile :=
        { name := scaledFileName, type := "image/png",
          bytes := host.encodePng composed, raster := composed } }

/-- The `Promise.all(objects.map(async (obj, index) => ...))` join of
the aligner, modelled as fail-fast sequencing: the batch succeeds with
the list of per-object results exactly when every sub-operation
succeeds, and otherwise fails with a failing sub-operation's error. -/
def alignAll (host : CanvasHost) (targetWidth targetHeight : ℕ) :
    ℕ → List SegmentObject → Except String (List SegmentObject)
  | _, [] => Except.ok []
  | index, obj :: rest => do
      let r ← alignOne host targetWidth targetHeight index obj
      let rs ← alignAll host targetWidth targetHeight (index + 1) rest
      Except.ok (r :: rs)

/-- `alignMasksToOriginal` (lines 285–375): an empty object list is
returned as is, before the original image is even decoded; otherwise
the target dimensions are read from the original image
(`naturalWidth || width`, `naturalHeight || height`), a zero dimension
is a batch-level error, and every object is aligned. -/
def alignMasksToOriginal (host : CanvasHost) (objects : List SegmentObject)
    (originalImg : HTMLImage) : Except String (List SegmentObject) :=
  if objects.length = 0 then
    Except.ok objects
  else
    let targetWidth :=
      if originalImg.naturalWidth ≠ 0 then originalImg.naturalWidth else originalImg.width
    let targetHeight :=
      if originalImg.naturalHeight ≠ 0 then originalImg.naturalHeight else originalImg.height
    if targetWidth = 0 ∨ targetHeight = 0 then
      Except.error "Unable to read the original image dimensions, so the masks cannot be aligned."
    else
      alignAll host targetWidth targetHeight 0 objects

/-- The `'lighten'` composite operation of the compositor, for the
opaque binary masks this application feeds it: per-channel maximum. -/
def lightenPixel (s d : Pixel) : Pixel :=
  ⟨max s.r d.r, max s.g d.g, max s.b d.b, max s.a d.a⟩

/-- One iteration of the compositor loop:
`ctx.drawImage(maskImg, 0, 0, width, height)` under
`globalCompositeOperation = 'lighten'` — the source mask is scaled to
the full canvas by the host resampler and blended pixel-wise. -/
def lightenDraw (host : CanvasHost) (canvas : Raster) (src : Raster) (w h : ℕ) : Raster :=
  { canvas with data := fun i j =>
      if i < w ∧ j < h then
        lightenPixel (host.resample src w h i j) (canvas.data i j)
      else
        canvas.data i j }

/-- `combineMaskFiles` (App.tsx, lines 58–100): a single mask file is
returned unchanged; otherwise the first file's dimensions are the
canvas size (failing when they are zero, or when there is no first
file to decode), every mask is lighten-blended onto a black canvas of
that size, and the result is PNG-encoded into a fresh timestamped
file. -/
def combineMaskFiles (host : CanvasHost) (now : ℕ) (maskFiles : List JsFile) :
    Except String JsFile :=
  match maskFiles with
  | [f] => Except.ok f
  | [] => Except.error "loadImage failed"
  | f0 :: _ =>
      let width := f0.raster.width
      let height := f0.raster.height
      if width = 0 ∨ height = 0 then
        Except.error "无法读取掩码尺寸。"
      else
        let canvas := blackCanvas width height
        let composed := maskFiles.foldl
          (fun acc f => lightenDraw host acc f.raster width height) canvas
        Except.ok
          { name := "combined-mask-" ++ toString now ++ ".png",
            type := "image/png",
            bytes := host.encodePng composed,
            raster := composed }

/-- The selection toggle passed as `onToggleObject` (App.tsx, lines
503–511): remove every entry sharing the clicked object's id when one
is present, append the object otherwise. -/
def toggleObject (prev : List SegmentObject) (object : SegmentObject) : List SegmentObject :=
  if prev.any (fun item => item.id == object.id) then
    prev.filter (fun item => item.id != object.id)
  else
    prev ++ [object]

/-- `calculateBoxArea` (ObjectSelectCanvas): the normalized box area,
clamped below at 0. -/
def calculateBoxArea (obj : SegmentObject) : ℚ :=
  let (ymin, xmin, ymax, xmax) := obj.box
  max ((ymax - ymin) * (xmax - xmin)) 0

/-- The containment test of `handleClick` (ObjectSelectCanvas, lines
131–144): whether the pointer position `(x, y)`, in canvas pixels,
lies inside the object's box scaled to the `w × h` canvas. -/
def containsPoint (w h : ℕ) (x y : ℚ) (obj : SegmentObject) : Bool :=
  let (ymin, xmin, ymax, xmax) := obj.box
  let boxX := xmin / 1000 * w
  let boxY := ymin / 1000 * h
  let boxW := (xmax - xmin) / 1000 * w
  let boxH := (ymax - ymin) / 1000 * h
  x ≥ boxX && x ≤ boxX + boxW && y ≥ boxY && y ≤ boxY + boxH

/-- The hit test of `handleClick`: filter to the objects containing
the pointer, stable-sort ascending by `calculateBoxArea` (JavaScript
`Array.prototype.sort` with a numeric comparator is a stable ascending
sort), and take the first element if any. -/
def handleClickHit (objects : List SegmentObject) (w h : ℕ) (x y : ℚ) :
    Option SegmentObject :=
  ((objects.filter (containsPoint w h x y)).mergeSort
    (fun a b => decide (calculateBoxArea a ≤ calculateBoxArea b))).head?

/-- The effect of one click on the selection set: toggle the hit
object when there is one, otherwise leave the selection unchanged
(`onToggleObject` is not called). -/
def clickUpdate (objects : List SegmentObject) (w h : ℕ) (x y : ℚ)
    (sel : List SegmentObject) : List SegmentObject :=
  match handleClickHit objects w h x y with
  | some o => toggleObject sel o
  | none => sel

/-- First index of `needle` as a contiguous sublist of `haystack`
(JavaScript `String.prototype.indexOf`), or `none`. -/
def findSub (needle : List Char) : List Char → Option ℕ
  | [] => if needle = [] then some 0 else none
  | c :: rest =>
      if needle.isPrefixOf (c :: rest) then some 0
      else (findSub needle rest).map (· + 1)

/-- `stripMarkdownFence` (segmentationService.ts, lines 72–89): trim,
cut out the interior of a ```` ```json ```` fence when present, else of
a generic ```` ``` ```` fence, else return the trimmed payload. -/
def stripMarkdownFence (payload : String) : String :=
  let trimmed := payload.trim
  let cs := trimmed.toList
  match findSub "```json".toList cs with
  | some i =>
      let afterFence := cs.drop (i + 7)
      match findSub "```".toList afterFence with
      | some j => (String.mk (afterFence.take j)).trim
      | none => (String.mk afterFence).trim
  | none =>
      match findSub "```".toList cs with
      | some i =>
          let afterFence := cs.drop (i + 3)
          match findSub "```".toList afterFence with
          | some j => (String.mk (afterFence.take j)).trim
          | none => (String.mk afterFence).trim
      | none => trimmed

/-- The `RawSegment` shape read off a parsed JSON entry: the three
fields the code accesses, each possibly absent (or of the wrong shape,
which reads back as absent). -/
structure RawSegment where
  box_2d : Option (List JSNum)
  mask : Option String
  label : Option String

/-- What `JSON.parse` hands back, seen through `Array.isArray` and the
three field accesses the code performs: an array of entries or a
single entry. -/
inductive ParsedJson where
  | arr (entries : List RawSegment)
  | single (entry : RawSegment)

/-- One parsed detection: `{ box, mask, label? }`. -/
structure ParsedItem where
  box : List JSNum
  mask : String
  label : Option String

/-- `parseSegmentationResponse` (lines 119–141).  `jsonParse` is the
host `JSON.parse` (`none` models a parse exception) and
`regexExtract` is `extractSegmentsWithRegex`, whose backtracking regex
engine is a host primitive; both are parameters.  Empty response text
yields no entries; a successful structured parse keeps the entries
with a 4-element box and a non-empty mask; a parse exception falls
back to the regex extraction over the raw text. -/
def parseSegmentationResponse (jsonParse : String → Option ParsedJson)
    (regexExtract : String → List ParsedItem) (responseText : String) :
    List ParsedItem :=
  if responseText = "" then
    []
  else
    let trimmedPayload := stripMarkdownFence responseText
    match jsonParse trimmedPayload with
    | some parsed =>
        let entries := match parsed with
          | .arr l => l
          | .single e => [e]
        (entries.map (fun e =>
            { box := e.box_2d.getD [], mask := e.mask.getD "", label := e.label })).filter
          (fun item => item.box.length == 4 && item.mask != "")
    | none => regexExtract responseText

/-- The capture of the regex `:(.*?);` — the characters between the
first `:` that is followed by a `;` and that first such `;`. -/
def takeUntilSemi : List Char → Option (List Char)
  | [] => none
  | c :: rest =>
      if c = ';' then some []
      else (takeUntilSemi rest).map (c :: ·)

/-- Scan for the first `:` whose tail contains a `;`, returning the
characters between them (the MIME capture of `dataURLtoFile`). -/
def mimeCapture : List Char → Option (List Char)
  | [] => none
  | c :: rest =>
      if c = ':' then
        match takeUntilSemi rest with
        | some cap => some cap
        | none => none
      else mimeCapture rest

/-- `dataURLtoFile` (segmentationService.ts, lines 146–160): split the
data URL on commas, require at least two parts, extract the MIME type
with `:(.*?);` (an empty capture is a failure), base64-decode the
payload with the host `atob` (`none` models the exception it throws on
invalid input), and build the `File`.  `decodeImage` is the host image
decoder giving the raster this byte payload represents. -/
def dataURLtoFile (atobFn : String → Option (List ℕ)) (decodeImage : List ℕ → Raster)
    (dataurl : String) (filename : String) : Except String JsFile :=
  let arr := dataurl.splitOn ","
  if arr.length < 2 then
    Except.error "Invalid data URL"
  else
    match mimeCapture (arr.getD 0 "").toList with
    | none => Except.error "Could not parse MIME type from data URL"
    | some cap =>
        if cap = [] then
          Except.error "Could not parse MIME type from data URL"
        else
          match atobFn (arr.getD 1 "") with
          | none => Except.error "InvalidCharacterError"
          | some bytes =>
              Except.ok
                { name := filename, type := String.mk cap,
                  bytes := bytes, raster := decodeImage bytes }

/-- `validateMaskFile` (lines 204–212): a mask file is valid when it
has at least one byte and its MIME type contains `image`. -/
def validateMaskFile (maskFile : JsFile) : Bool :=
  if maskFile.bytes.length = 0 then false
  else if (findSub "image".toList maskFile.type.toList).isNone then false
  else true

/-- The unchecked `item.box as [number, number, number, number]` cast
performed after validation; the default is unreachable for boxes that
passed `isValidNormalizedBox`. -/
def boxToQuad : List JSNum → ℚ × ℚ × ℚ × ℚ
  | [.num a, .num b, .num c, .num d] => (a, b, c, d)
  | _ => (0, 0, 0, 0)

/-- The message thrown by `segmentImage` when no valid segment
remains. -/
def noObjectsMessage : String :=
  "No objects detected in the image. The API response may be in an unexpected format."

/-- The `maskDataUrl` normalization of `segmentImage` (lines
260–262): prepend the PNG data-URL prefix unless already present. -/
def normalizeMaskDataUrl (mask : String) : String :=
  if mask.startsWith "data:image/png;base64," then mask
  else "data:image/png;base64," ++ mask

/-- The per-segment object construction inside `segmentImage` (lines
259–277): normalize the mask payload to a data URL, build the mask
`File`, validate it, and assemble the `SegmentObject`. -/
def buildSegmentObject (atobFn : String → Option (List ℕ)) (decodeImage : List ℕ → Raster)
    (index : ℕ) (item : ParsedItem) : Except String SegmentObject := do
  let maskFile ← dataURLtoFile atobFn decodeImage (normalizeMaskDataUrl item.mask)
    ("mask_" ++ toString index ++ ".png")
  if !validateMaskFile maskFile then
    Except.error ("Invalid mask file generated for object " ++ toString index)
  else
    Except.ok
      { id := "obj_" ++ toString index, box := boxToQuad item.box,
        mask := maskFile.raster, maskFile := maskFile, label := item.label }

/-- The synchronous `segments.map((item, index) => ...)` of
`segmentImage`: left-to-right, aborting at the first thrown error. -/
def buildAllSegmentObjects (atobFn : String → Option (List ℕ))
    (decodeImage : List ℕ → Raster) :
    ℕ → List ParsedItem → Except String (List SegmentObject)
  | _, [] => Except.ok []
  | index, item :: rest => do
      let o ← buildSegmentObject atobFn decodeImage index item
      let os ← buildAllSegmentObjects atobFn decodeImage (index + 1) rest
      Except.ok (o :: os)

/-- The response-processing tail of `segmentImage` (lines 251–279):
parse the response text, keep the segments with a valid normalized
box, fail with the no-objects message when none remain, and otherwise
build one `SegmentObject` per remaining segment. -/
def segmentImageFromResponse (jsonParse : String → Option ParsedJson)
    (regexExtract : String → List ParsedItem) (atobFn : String → Option (List ℕ))
    (decodeImage : List ℕ → Raster) (responseText : String) :
    Except String (List SegmentObject) :=
  let segments := (parseSegmentationResponse jsonParse regexExtract responseText).filter
    (fun segment => isValidNormalizedBox segment.box)
  if segments.length = 0 then
    Except.error noObjectsMessage
  else
    buildAllSegmentObjects atobFn decodeImage 0 segments

/-- A constant raster, used to build concrete fixtures. -/
def constRaster (w h : ℕ) (p : Pixel) : Raster :=
  { width := w, height := h, data := fun _ _ => p }

/-- A concrete host whose resampler returns transparent black and
whose encoder returns no bytes; concrete witnesses instantiate the
host parameters with it. -/
def trivialHost : CanvasHost :=
  { resample := fun _ _ _ _ _ => ⟨0, 0, 0, 0⟩, encodePng := fun _ => [] }

/-- A concrete mask file fixture. -/
def fixtureFile : JsFile :=
  { name := "mask_0.png", type := "image/png", bytes := [1, 2, 3],
    raster := constRaster 3 2 ⟨255, 255, 255, 255⟩ }

/-- A concrete full-frame segment object fixture. -/
def fixtureObjFull : SegmentObject :=
  { id := "obj_0", box := (0, 0, 1000, 1000), mask := fixtureFile.raster,
    maskFile := fixtureFile, label := some "chair" }

/-- A segment object whose box overhangs the right canvas edge once
rounded to a 100-pixel-wide canvas: `x = round(49.5) = 50` and
`width = round(50.5) = 51`, so `x + width = 101 > 100`. -/
def fixtureObjOverhang : SegmentObject :=
  { id := "obj_0", box := (0, 495, 1000, 1000), mask := fixtureFile.raster,
    maskFile := fixtureFile, label := none }

/-- A segment object whose rounded origin lies at the canvas edge
(`xmin = 999` rounds to `x = 100` on a 100-pixel-wide canvas). -/
def fixtureObjOffCanvas : SegmentObject :=
  { id := "obj_1", box := (0, 999, 1000, 1000), mask := fixtureFile.raster,
    maskFile := fixtureFile, label := none }

/-- A concrete quarter-frame segment object fixture, with smaller
normalized area than the full-frame fixture. -/
def fixtureObjSmall : SegmentObject :=
  { id := "obj_2", box := (0, 0, 500, 500), mask := fixtureFile.raster,
    maskFile := fixtureFile, label := some "vase" }

/-- A concrete 100 × 100 original image. -/
def fixtureImg100 : HTMLImage :=
  { naturalWidth := 100, naturalHeight := 100, width := 100, height := 100 }

/-- A concrete original image with unreadable pixel dimensions. -/
def fixtureImgZero : HTMLImage :=
  { naturalWidth := 0, naturalHeight := 0, width := 0, height := 0 }

/-!  Theorems.  -/

/-- Unpacking one field check of the box validator: a value passing
the finite-and-in-range test is a rational in `[0, 1000]`. -/
theorem jsnum_field_ok (v : JSNum)
    (hv : (!v.isFinite || v.lt (.num 0) || (JSNum.num 1000).lt v) = false) :
    ∃ a : ℚ, v = .num a ∧ 0 ≤ a ∧ a ≤ 1000 := by
  cases v with
  | num a =>
      refine ⟨a, rfl, ?_, ?_⟩ <;>
        simp only [JSNum.isFinite, JSNum.lt, Bool.not_true, Bool.false_or,
          Bool.or_eq_false_iff, decide_eq_false_iff_not, not_lt] at hv
      · exact hv.1
      · exact hv.2
  | nan => simp [JSNum.isFinite] at hv
  | posInf => simp [JSNum.isFinite] at hv
  | negInf => simp [JSNum.isFinite] at hv

/-- C1.  The box validator accepts a candidate exactly when it is a
four-element list of finite values in `[0, 1000]` with
`ymin < ymax` and `xmin < xmax`; in particular it rejects the
degenerate box `[0,0,0,0]`, the inverted box `[500,500,400,400]`, and
every candidate without exactly 4 elements. -/
theorem C1_box_validator :
    (∀ box : List JSNum, isValidNormalizedBox box = true ↔
      ∃ a b c d : ℚ, box = [.num a, .num b, .num c, .num d] ∧
        (0 ≤ a ∧ a ≤ 1000) ∧ (0 ≤ b ∧ b ≤ 1000) ∧
        (0 ≤ c ∧ c ≤ 1000) ∧ (0 ≤ d ∧ d ≤ 1000) ∧
        a < c ∧ b < d) ∧
    isValidNormalizedBox [.num 0, .num 0, .num 0, .num 0] = false ∧
    isValidNormalizedBox [.num 500, .num 500, .num 400, .num 400] = false ∧
    (∀ box : List JSNum, box.length ≠ 4 → isValidNormalizedBox box = false) := by
  have hlen : ∀ box : List JSNum, box.length ≠ 4 → isValidNormalizedBox box = false := by
    intro box hbox
    match box with
    | [] => rfl
    | [_] => rfl
    | [_, _] => rfl
    | [_, _, _] => rfl
    | [_, _, _, _] => exact absurd rfl hbox
    | _ :: _ :: _ :: _ :: _ :: _ => rfl
  refine ⟨?_, by decide, by decide, hlen⟩
  intro box
  constructor
  · intro h
    match box with
    | [] => exact absurd h (by simp [isValidNormalizedBox])
    | [_] => exact absurd h (by simp [isValidNormalizedBox])
    | [_, _] => exact absurd h (by simp [isValidNormalizedBox])
    | [_, _, _] => exact absurd h (by simp [isValidNormalizedBox])
    | _ :: _ :: _ :: _ :: _ :: _ => exact absurd h (by simp [isValidNormalizedBox])
    | [v0, v1, v2, v3] =>
        rw [isValidNormalizedBox] at h
        split at h
        · exact absurd h (by simp)
        · rename_i hany
          rw [Bool.not_eq_true, List.any_eq_false] at hany
          obtain ⟨a, rfl, ha⟩ := jsnum_field_ok v0 (Bool.eq_false_iff.mpr (hany v0 (by simp)))
          obtain ⟨b, rfl, hb⟩ := jsnum_field_ok v1 (Bool.eq_false_iff.mpr (hany v1 (by simp)))
          obtain ⟨c, rfl, hc⟩ := jsnum_field_ok v2 (Bool.eq_false_iff.mpr (hany v2 (by simp)))
          obtain ⟨d, rfl, hd⟩ := jsnum_field_ok v3 (Bool.eq_false_iff.mpr (hany v3 (by simp)))
          rw [Bool.and_eq_true] at h
          refine ⟨a, b, c, d, rfl, ha, hb, hc, hd, ?_, ?_⟩
          · simpa [JSNum.lt] using h.1
          · simpa [JSNum.lt] using h.2
  · rintro ⟨a, b, c, d, rfl, ha, hb, hc, hd, hac, hbd⟩
    rw [isValidNormalizedBox]
    split
    · rename_i hany
      rw [List.any_eq_true] at hany
      obtain ⟨v, hv, hvt⟩ := hany
      simp only [List.mem_cons, List.not_mem_nil, or_false] at hv
      rcases hv with rfl | rfl | rfl | rfl <;>
        simp only [JSNum.isFinite, JSNum.lt, Bool.not_true, Bool.false_or,
          Bool.or_eq_true, decide_eq_true_eq] at hvt
      · rcases hvt with h1 | h1 <;> linarith [ha.1, ha.2]
      · rcases hvt with h1 | h1 <;> linarith [hb.1, hb.2]
      · rcases hvt with h1 | h1 <;> linarith [hc.1, hc.2]
      · rcases hvt with h1 | h1 <;> linarith [hd.1, hd.2]
    · simp only [JSNum.lt, Bool.and_eq_true, decide_eq_true_eq]
      exact ⟨hac, hbd⟩

/-- Witness for C1: the validator accepts a concrete in-range box with
a non-unit length check exercised on a 1-element candidate. -/
theorem C1_box_validator_witness :
    isValidNormalizedBox
      [.num 10, .num 20, .num 30, .num 40] = true ∧
    isValidNormalizedBox [.num 10] = false := by
  refine ⟨?_, C1_box_validator.2.2.2 [.num 10] (by decide)⟩
  exact (C1_box_validator.1 _).2
    ⟨10, 20, 30, 40, rfl, by norm_num, by norm_num, by norm_num, by norm_num,
      by norm_num, by norm_num⟩

/-- C7.  The selection toggle appends the object when no entry with
its id is present, removes the entries with its id when one is
present, and toggling the same object twice preserves the selection's
id membership. -/
theorem C7_toggle_involution :
    ∀ (sel : List SegmentObject) (o : SegmentObject),
      (sel.any (fun item => item.id == o.id) = false →
        toggleObject sel o = sel ++ [o]) ∧
      (sel.any (fun item => item.id == o.id) = true →
        toggleObject sel o = sel.filter (fun item => item.id != o.id)) ∧
      (∀ i : String,
        i ∈ (toggleObject (toggleObject sel o) o).map SegmentObject.id ↔
          i ∈ sel.map SegmentObject.id) := by
  intro sel o
  refine ⟨fun h => by simp only [toggleObject, h, Bool.false_eq_true, if_false],
    fun h => by simp only [toggleObject, h, if_true], ?_⟩
  intro i
  by_cases h : sel.any (fun item => item.id == o.id) = true
  · have h1 : toggleObject sel o = sel.filter (fun item => item.id != o.id) := by
      simp only [toggleObject, h, if_true]
    have h2 : (sel.filter (fun item => item.id != o.id)).any
        (fun item => item.id == o.id) = false := by
      rw [List.any_eq_false]
      intro x hx
      have := (List.mem_filter.mp hx).2
      simp only [bne_iff_ne, ne_eq, decide_eq_true_eq] at this
      simp [this]
    have h3 : toggleObject (toggleObject sel o) o =
        sel.filter (fun item => item.id != o.id) ++ [o] := by
      rw [h1, toggleObject, h2]
      simp
    rw [h3]
    simp only [List.map_append, List.map_cons, List.map_nil, List.mem_append,
      List.mem_map, List.mem_singleton, List.mem_filter]
    constructor
    · rintro (⟨x, ⟨hx, _⟩, rfl⟩ | rfl)
      · exact ⟨x, hx, rfl⟩
      · rw [List.any_eq_true] at h
        obtain ⟨x, hx, hxid⟩ := h
        exact ⟨x, hx, by simpa using hxid⟩
    · rintro ⟨x, hx, rfl⟩
      by_cases hxo : x.id = o.id
      · exact Or.inr hxo
      · exact Or.inl ⟨x, ⟨hx, by simp [hxo]⟩, rfl⟩
  · rw [Bool.not_eq_true] at h
    have h1 : toggleObject sel o = sel ++ [o] := by
      simp only [toggleObject, h, Bool.false_eq_true, if_false]
    have h2 : (sel ++ [o]).any (fun item => item.id == o.id) = true := by
      rw [List.any_eq_true]
      exact ⟨o, by simp, by simp⟩
    have hfix : sel.filter (fun item => item.id != o.id) = sel := by
      rw [List.filter_eq_self]
      intro x hx
      rw [List.any_eq_false] at h
      have := h x hx
      simpa using this
    have h3 : toggleObject (toggleObject sel o) o = sel := by
      rw [h1, toggleObject, h2]
      simp only [if_true, List.filter_append]
      rw [hfix]
      simp
    rw [h3]

/-- Witness for C7: toggling a concrete object in and out of a
concrete one-element selection preserves its id set, and the two
single-toggle cases are exercised. -/
theorem C7_toggle_involution_witness :
    (toggleObject [fixtureObjFull] fixtureObjOffCanvas =
      [fixtureObjFull] ++ [fixtureObjOffCanvas]) ∧
    (toggleObject [fixtureObjFull] fixtureObjFull =
      [fixtureObjFull].filter (fun item => item.id != fixtureObjFull.id)) ∧
    ("obj_0" ∈ (toggleObject (toggleObject [fixtureObjFull] fixtureObjFull)
        fixtureObjFull).map SegmentObject.id ↔
      "obj_0" ∈ [fixtureObjFull].map SegmentObject.id) :=
  ⟨(C7_toggle_involution [fixtureObjFull] fixtureObjOffCanvas).1 (by
      simp [fixtureObjFull, fixtureObjOffCanvas]),
   (C7_toggle_involution [fixtureObjFull] fixtureObjFull).2.1 (by
      simp [fixtureObjFull]),
   (C7_toggle_involution [fixtureObjFull] fixtureObjFull).2.2 "obj_0"⟩

/-- C8.  The compositor is the identity on a one-element input: the
very same file value — bytes included — is returned, for every host
encoder, so no re-encoding happens. -/
theorem C8_single_mask_passthrough :
    ∀ (host : CanvasHost) (now : ℕ) (f : JsFile),
      combineMaskFiles host now [f] = Except.ok f := by
  intro host now f
  rfl

/-- C10.  Aligning an empty object list succeeds with the empty list
for every original image — including one whose pixel dimensions are
unreadable — so the dimension error cannot be raised for empty
input. -/
theorem C10_empty_alignment :
    ∀ (host : CanvasHost) (img : HTMLImage),
      alignMasksToOriginal host [] img = Except.ok [] := by
  intro host img
  rfl

/-- C5.  The aligner's binarization maps every pixel of the box-local
buffer to fully opaque white exactly when its channel average exceeds
127, to fully transparent black otherwise, leaving no intermediate
values, and never changes the buffer dimensions. -/
theorem C5_binarization :
    ∀ (m : Raster) (i j : ℕ),
      (binarizeRaster m).width = m.width ∧
      (binarizeRaster m).height = m.height ∧
      ((((m.data i j).r + (m.data i j).g + (m.data i j).b : ℚ)) / 3 > 127 →
        (binarizeRaster m).data i j = ⟨255, 255, 255, 255⟩) ∧
      ((((m.data i j).r + (m.data i j).g + (m.data i j).b : ℚ)) / 3 ≤ 127 →
        (binarizeRaster m).data i j = ⟨0, 0, 0, 0⟩) ∧
      ((binarizeRaster m).data i j = ⟨255, 255, 255, 255⟩ ∨
        (binarizeRaster m).data i j = ⟨0, 0, 0, 0⟩) := by
  intro m i j
  refine ⟨rfl, rfl, ?_, ?_, ?_⟩ <;>
    simp only [binarizeRaster, binarizePixel, DEFAULT_MASK_THRESHOLD]
  · intro hgt
    rw [if_pos (by exact_mod_cast hgt)]
  · intro hle
    rw [if_neg (by push_cast; linarith)]
  · split
    · exact Or.inl rfl
    · exact Or.inr rfl

/-- Witness for C5: a bright pixel snaps to opaque white and a dark
pixel snaps to transparent black in concrete 1 × 1 buffers. -/
theorem C5_binarization_witness :
    (binarizeRaster (constRaster 1 1 ⟨200, 200, 200, 0⟩)).data 0 0 =
      ⟨255, 255, 255, 255⟩ ∧
    (binarizeRaster (constRaster 1 1 ⟨10, 10, 10, 255⟩)).data 0 0 =
      ⟨0, 0, 0, 0⟩ :=
  ⟨(C5_binarization (constRaster 1 1 ⟨200, 200, 200, 0⟩) 0 0).2.2.1
      (by norm_num [constRaster]),
   (C5_binarization (constRaster 1 1 ⟨10, 10, 10, 255⟩) 0 0).2.2.2.1
      (by norm_num [constRaster])⟩

/-- Reduction of `Except` bind on a success value. -/
theorem except_bind_ok {ε α β : Type} (a : α) (f : α → Except ε β) :
    (Except.ok (ε := ε) a >>= f) = f a := rfl

/-- Reduction of `Except` bind on an error value. -/
theorem except_bind_error {ε α β : Type} (e : ε) (f : α → Except ε β) :
    ((Except.error e : Except ε α) >>= f) = Except.error e := rfl

/-- What a successful `alignOne` returns: the input object with only
its `mask` and `maskFile` fields replaced, the new rasters being the
full-size composition canvas. -/
theorem alignOne_ok (host : CanvasHost) (targetWidth targetHeight index : ℕ)
    (obj r : SegmentObject)
    (h : alignOne host targetWidth targetHeight index obj = Except.ok r) :
    r.id = obj.id ∧ r.box = obj.box ∧ r.label = obj.label ∧
    r.mask.width = targetWidth ∧ r.mask.height = targetHeight ∧
    r.maskFile.raster.width = targetWidth ∧
    r.maskFile.raster.height = targetHeight := by
  rw [alignOne] at h
  split at h
  · exact absurd h (by simp)
  · rw [Except.ok.injEq] at h
    subst h
    exact ⟨rfl, rfl, rfl, rfl, rfl, rfl, rfl⟩

/-- A successful `alignAll` pairs inputs and outputs positionally:
each output comes from a successful `alignOne` on the corresponding
input. -/
theorem alignAll_ok_forall2 (host : CanvasHost) (targetWidth targetHeight : ℕ) :
    ∀ (index : ℕ) (objs res : List SegmentObject),
      alignAll host targetWidth targetHeight index objs = Except.ok res →
      List.Forall₂
        (fun obj r => ∃ i, alignOne host targetWidth targetHeight i obj = Except.ok r)
        objs res := by
  intro index objs
  induction objs generalizing index with
  | nil =>
      intro res h
      rw [alignAll, Except.ok.injEq] at h
      subst h
      exact List.Forall₂.nil
  | cons o rest ih =>
      intro res h
      rw [alignAll] at h
      cases halign : alignOne host targetWidth targetHeight index o with
      | error e => rw [halign, except_bind_error] at h; exact absurd h (by simp)
      | ok r =>
          rw [halign, except_bind_ok] at h
          cases hrest : alignAll host targetWidth targetHeight (index + 1) rest with
          | error e => rw [hrest, except_bind_error] at h; exact absurd h (by simp)
          | ok rs =>
              rw [hrest, except_bind_ok, Except.ok.injEq] at h
              subst h
              exact List.Forall₂.cons ⟨index, halign⟩ (ih (index + 1) rs hrest)

/-- Membership form of a positional correspondence: each member of the
right list is related to some member of the left list. -/
theorem forall2_mem_right {α β : Type} {R : α → β → Prop} :
    ∀ {l1 : List α} {l2 : List β}, List.Forall₂ R l1 l2 →
      ∀ b ∈ l2, ∃ a ∈ l1, R a b := by
  intro l1 l2 hf
  induction hf with
  | nil => intro b hb; exact absurd hb (by simp)
  | @cons a b l1t l2t hR _ ih =>
      intro x hx
      rcases List.mem_cons.mp hx with rfl | hx
      · exact ⟨a, by simp, hR⟩
      · obtain ⟨a2, ha2, hr2⟩ := ih x hx
        exact ⟨a2, by simp [ha2], hr2⟩

/-- On a non-empty batch with readable natural dimensions, a
successful `alignMasksToOriginal` is a successful `alignAll` at those
dimensions. -/
theorem alignMasks_ok_elim (host : CanvasHost) (objects : List SegmentObject)
    (img : HTMLImage) (res : List SegmentObject)
    (hne : objects ≠ []) (hW : img.naturalWidth ≠ 0) (hH : img.naturalHeight ≠ 0)
    (h : alignMasksToOriginal host objects img = Except.ok res) :
    alignAll host img.naturalWidth img.naturalHeight 0 objects = Except.ok res := by
  rw [alignMasksToOriginal] at h
  rw [if_neg (by simpa using hne), if_pos hW, if_pos hH, if_neg (by simp [hW, hH])] at h
  exact h

/-- C2.  For a non-empty object list and an original image with
non-zero natural dimensions `W × H`, every mask raster returned by a
successful alignment call — both the mask image and the mask file —
has pixel dimensions exactly `W × H`, for every host resampler and
every input mask size. -/
theorem C2_alignment_dims (host : CanvasHost) (objects : List SegmentObject)
    (img : HTMLImage) (res : List SegmentObject)
    (hne : objects ≠ []) (hW : img.naturalWidth ≠ 0) (hH : img.naturalHeight ≠ 0)
    (h : alignMasksToOriginal host objects img = Except.ok res) :
    ∀ o ∈ res,
      o.mask.width = img.naturalWidth ∧ o.mask.height = img.naturalHeight ∧
      o.maskFile.raster.width = img.naturalWidth ∧
      o.maskFile.raster.height = img.naturalHeight := by
  intro o ho
  have hall := alignAll_ok_forall2 host img.naturalWidth img.naturalHeight 0 objects res
    (alignMasks_ok_elim host objects img res hne hW hH h)
  obtain ⟨obj, _, i, hone⟩ := forall2_mem_right hall o ho
  have hfields := alignOne_ok host img.naturalWidth img.naturalHeight i obj o hone
  exact ⟨hfields.2.2.2.1, hfields.2.2.2.2.1, hfields.2.2.2.2.2.1, hfields.2.2.2.2.2.2⟩

/-- C4.  A successful alignment call returns, for each input object,
an object that differs only in its mask rasters: id, box (still in
the normalized 0–1000 frame) and label are returned unchanged. -/
theorem C4_alignment_preserves_fields (host : CanvasHost)
    (objects : List SegmentObject) (img : HTMLImage) (res : List SegmentObject)
    (h : alignMasksToOriginal host objects img = Except.ok res) :
    List.Forall₂
      (fun obj r => r.id = obj.id ∧ r.box = obj.box ∧ r.label = obj.label)
      objects res := by
  rw [alignMasksToOriginal] at h
  by_cases hne : objects.length = 0
  · rw [if_pos hne, Except.ok.injEq] at h
    subst h
    rw [List.length_eq_zero] at hne
    subst hne
    exact List.Forall₂.nil
  · rw [if_neg hne] at h
    dsimp only at h
    generalize (if img.naturalWidth ≠ 0 then img.naturalWidth else img.width) = W at h
    generalize (if img.naturalHeight ≠ 0 then img.naturalHeight else img.height) = H at h
    split at h
    · exact absurd h (by simp)
    · have hall := alignAll_ok_forall2 _ _ _ _ _ _ h
      refine List.Forall₂.imp ?_ hall
      intro obj r hr
      obtain ⟨i, hone⟩ := hr
      have hfields := alignOne_ok _ _ _ _ _ _ hone
      exact ⟨hfields.1, hfields.2.1, hfields.2.2.1⟩

/-- Evaluation rule for `jsRound` at a known result. -/
theorem jsRound_eq (q : ℚ) (z : ℤ) (h1 : (z : ℚ) ≤ q + 1 / 2)
    (h2 : q + 1 / 2 < (z : ℚ) + 1) : jsRound q = z := by
  rw [jsRound, Int.floor_eq_iff]
  exact ⟨h1, by exact_mod_cast h2⟩

/-- The full-frame fixture box maps onto the whole 100 × 100 canvas. -/
theorem fixture_pixelBox_full : pixelBox 100 100 fixtureObjFull = ⟨0, 0, 100, 100⟩ := by
  simp only [pixelBox, fixtureObjFull]
  rw [jsRound_eq (0 / 1000 * (100 : ℕ)) 0 (by norm_num) (by norm_num),
    jsRound_eq ((1000 - 0) / 1000 * (100 : ℕ)) 100 (by norm_num) (by norm_num)]
  norm_num

/-- Aligning the full-frame fixture object on a 100 × 100 target
succeeds. -/
theorem fixture_alignOne_ok :
    ∃ r, alignOne trivialHost 100 100 0 fixtureObjFull = Except.ok r := by
  simp only [alignOne, fixture_pixelBox_full]
  norm_num

/-- The one-object fixture batch aligns successfully. -/
theorem fixture_align_batch :
    ∃ res, alignMasksToOriginal trivialHost [fixtureObjFull] fixtureImg100 =
      Except.ok res := by
  obtain ⟨r, hr⟩ := fixture_alignOne_ok
  refine ⟨[r], ?_⟩
  rw [alignMasksToOriginal, if_neg (by simp)]
  simp only [fixtureImg100]
  norm_num
  rw [alignAll, hr, except_bind_ok, alignAll, except_bind_ok]

/-- Witness for C2: the concrete one-object batch aligns successfully
on a concrete 100 × 100 original, and the returned mask rasters have
exactly the original's dimensions. -/
theorem C2_alignment_dims_witness :
    ∃ res, alignMasksToOriginal trivialHost [fixtureObjFull] fixtureImg100 =
        Except.ok res ∧
      ∀ o ∈ res, o.mask.width = 100 ∧ o.mask.height = 100 ∧
        o.maskFile.raster.width = 100 ∧ o.maskFile.raster.height = 100 := by
  obtain ⟨res, hres⟩ := fixture_align_batch
  refine ⟨res, hres, fun o ho => ?_⟩
  have hdims := C2_alignment_dims trivialHost [fixtureObjFull] fixtureImg100 res
    (by simp) (by norm_num [fixtureImg100]) (by norm_num [fixtureImg100]) hres o ho
  exact ⟨by simpa [fixtureImg100] using hdims.1,
    by simpa [fixtureImg100] using hdims.2.1,
    by simpa [fixtureImg100] using hdims.2.2.1,
    by simpa [fixtureImg100] using hdims.2.2.2⟩

/-- Witness for C4: the concrete one-object batch aligns successfully
and the returned object keeps the input id, box and label. -/
theorem C4_alignment_preserves_fields_witness :
    ∃ res, alignMasksToOriginal trivialHost [fixtureObjFull] fixtureImg100 =
        Except.ok res ∧
      List.Forall₂
        (fun obj r => r.id = obj.id ∧ r.box = obj.box ∧ r.label = obj.label)
        [fixtureObjFull] res := by
  obtain ⟨res, hres⟩ := fixture_align_batch
  exact ⟨res, hres, C4_alignment_preserves_fields _ _ _ _ hres⟩

/-- The clamped pixel width and height of a converted box are always
at least 1, so the `width <= 0 || height <= 0` branch of the aligner's
rejection test can never fire. -/
theorem pixelBox_size_pos (W H : ℕ) (obj : SegmentObject) :
    1 ≤ (pixelBox W H obj).w ∧ 1 ≤ (pixelBox W H obj).h := by
  rcases hbox : obj.box with ⟨a, b, c, d⟩
  simp only [pixelBox, hbox]
  exact ⟨le_max_left _ _, le_max_left _ _⟩

/-- `alignOne` raises the per-object box error exactly when the
rounded origin lies at or beyond the target canvas. -/
theorem alignOne_error_iff (host : CanvasHost) (W H index : ℕ) (obj : SegmentObject) :
    alignOne host W H index obj =
      Except.error ("Invalid mask bounding box: " ++ obj.id) ↔
    ((W : ℤ) ≤ (pixelBox W H obj).x ∨ (H : ℤ) ≤ (pixelBox W H obj).y) := by
  obtain ⟨hw, hh⟩ := pixelBox_size_pos W H obj
  rw [alignOne]
  constructor
  · intro h
    split at h
    · rename_i hc
      rcases hc with h1 | h2 | h3 | h4
      · exact Or.inl h1
      · exact Or.inr h2
      · omega
      · omega
    · exact absurd h (by simp)
  · intro hc
    rw [if_pos]
    rcases hc with h1 | h2
    · exact Or.inl h1
    · exact Or.inr (Or.inl h2)

/-- `alignOne` succeeds exactly when the rounded origin lies inside
the target canvas. -/
theorem alignOne_ok_of_inside (host : CanvasHost) (W H index : ℕ) (obj : SegmentObject)
    (hc : ¬((W : ℤ) ≤ (pixelBox W H obj).x ∨ (H : ℤ) ≤ (pixelBox W H obj).y)) :
    ∃ r, alignOne host W H index obj = Except.ok r := by
  obtain ⟨hw, hh⟩ := pixelBox_size_pos W H obj
  rw [alignOne, if_neg (by push_neg at hc ⊢; refine ⟨hc.1, hc.2, by omega, by omega⟩)]
  exact ⟨_, rfl⟩

/-- When some object of the batch has its rounded origin outside the
canvas, `alignAll` fails with the box error of such an object. -/
theorem alignAll_error_of_outside (host : CanvasHost) (W H : ℕ) :
    ∀ (index : ℕ) (objs : List SegmentObject) (obj : SegmentObject),
      obj ∈ objs →
      ((W : ℤ) ≤ (pixelBox W H obj).x ∨ (H : ℤ) ≤ (pixelBox W H obj).y) →
      ∃ o ∈ objs,
        ((W : ℤ) ≤ (pixelBox W H o).x ∨ (H : ℤ) ≤ (pixelBox W H o).y) ∧
        alignAll host W H index objs =
          Except.error ("Invalid mask bounding box: " ++ o.id) := by
  intro index objs
  induction objs generalizing index with
  | nil => intro obj h; exact absurd h (by simp)
  | cons o rest ih =>
      intro obj hmem hcond
      by_cases hc : ((W : ℤ) ≤ (pixelBox W H o).x ∨ (H : ℤ) ≤ (pixelBox W H o).y)
      · refine ⟨o, by simp, hc, ?_⟩
        rw [alignAll, (alignOne_error_iff host W H index o).mpr hc, except_bind_error]
      · have hobj : obj ∈ rest := by
          rcases List.mem_cons.mp hmem with rfl | h
          · exact absurd hcond hc
          · exact h
        obtain ⟨r, hr⟩ := alignOne_ok_of_inside host W H index o hc
        obtain ⟨o2, ho2, hcond2, herr⟩ := ih (index + 1) obj hobj hcond
        refine ⟨o2, by simp [ho2], hcond2, ?_⟩
        rw [alignAll, hr, except_bind_ok, herr, except_bind_error]

/-- C3 (amended).  The aligner converts each box with
`pixel = round(normalized / 1000 * targetDimension)` and floors the
pixel width and height at 1 (the definition of `pixelBox`); it rejects
an object — with an error naming that object's id — exactly when the
rounded origin lies outside the `W × H` canvas (`x ≥ W` or `y ≥ H`),
and any such object makes the whole batch fail with the box error of
an out-of-canvas object.  (A pixel box that merely extends past the
right or bottom canvas edge is not rejected; see the
counterexample.) -/
theorem C3_pixel_rejection (host : CanvasHost) (W H index : ℕ) (obj : SegmentObject) :
    (alignOne host W H index obj =
        Except.error ("Invalid mask bounding box: " ++ obj.id) ↔
      ((W : ℤ) ≤ (pixelBox W H obj).x ∨ (H : ℤ) ≤ (pixelBox W H obj).y)) ∧
    (∀ (objects : List SegmentObject) (img : HTMLImage),
      img.naturalWidth ≠ 0 → img.naturalHeight ≠ 0 → obj ∈ objects →
      ((img.naturalWidth : ℤ) ≤ (pixelBox img.naturalWidth img.naturalHeight obj).x ∨
        (img.naturalHeight : ℤ) ≤ (pixelBox img.naturalWidth img.naturalHeight obj).y) →
      ∃ o ∈ objects,
        ((img.naturalWidth : ℤ) ≤ (pixelBox img.naturalWidth img.naturalHeight o).x ∨
          (img.naturalHeight : ℤ) ≤ (pixelBox img.naturalWidth img.naturalHeight o).y) ∧
        alignMasksToOriginal host objects img =
          Except.error ("Invalid mask bounding box: " ++ o.id)) := by
  refine ⟨alignOne_error_iff host W H index obj, ?_⟩
  intro objects img hW hH hmem hcond
  obtain ⟨o, ho, hc2, herr⟩ :=
    alignAll_error_of_outside host img.naturalWidth img.naturalHeight 0 objects obj
      hmem hcond
  refine ⟨o, ho, hc2, ?_⟩
  rw [alignMasksToOriginal,
    if_neg (by simp [List.length_eq_zero]; rintro rfl; exact absurd hmem (by simp)),
    if_pos hW, if_pos hH, if_neg (by simp [hW, hH])]
  exact herr

/-- The off-canvas fixture box rounds to origin 100 on a
100-pixel-wide canvas. -/
theorem fixture_pixelBox_offCanvas :
    pixelBox 100 100 fixtureObjOffCanvas = ⟨100, 0, 1, 100⟩ := by
  simp only [pixelBox, fixtureObjOffCanvas]
  rw [jsRound_eq (999 / 1000 * (100 : ℕ)) 100 (by norm_num) (by norm_num),
    jsRound_eq (0 / 1000 * (100 : ℕ)) 0 (by norm_num) (by norm_num),
    jsRound_eq ((1000 - 999) / 1000 * (100 : ℕ)) 0 (by norm_num) (by norm_num),
    jsRound_eq ((1000 - 0) / 1000 * (100 : ℕ)) 100 (by norm_num) (by norm_num)]
  norm_num

/-- Witness for C3: a concrete object whose rounded origin lands at
x = 100 on a 100-pixel canvas makes the one-object batch fail with the
error naming that object. -/
theorem C3_pixel_rejection_witness :
    alignMasksToOriginal trivialHost [fixtureObjOffCanvas] fixtureImg100 =
      Except.error ("Invalid mask bounding box: " ++ fixtureObjOffCanvas.id) := by
  have hcond : ((fixtureImg100.naturalWidth : ℤ) ≤
      (pixelBox fixtureImg100.naturalWidth fixtureImg100.naturalHeight
        fixtureObjOffCanvas).x ∨
      (fixtureImg100.naturalHeight : ℤ) ≤
      (pixelBox fixtureImg100.naturalWidth fixtureImg100.naturalHeight
        fixtureObjOffCanvas).y) := by
    left
    rw [show fixtureImg100.naturalWidth = 100 from rfl,
      show fixtureImg100.naturalHeight = 100 from rfl, fixture_pixelBox_offCanvas]
    norm_num
  obtain ⟨o, ho, _, herr⟩ :=
    (C3_pixel_rejection trivialHost 100 100 0 fixtureObjOffCanvas).2
      [fixtureObjOffCanvas] fixtureImg100 (by norm_num [fixtureImg100])
      (by norm_num [fixtureImg100]) (by simp) hcond
  rcases List.mem_singleton.mp ho with rfl
  exact herr

/-- The overhang fixture box rounds to x = 50, width 51 on a
100-pixel-wide canvas, so its pixel box reaches column 101. -/
theorem fixture_pixelBox_overhang :
    pixelBox 100 100 fixtureObjOverhang = ⟨50, 0, 51, 100⟩ := by
  simp only [pixelBox, fixtureObjOverhang]
  rw [jsRound_eq (495 / 1000 * (100 : ℕ)) 50 (by norm_num) (by norm_num),
    jsRound_eq (0 / 1000 * (100 : ℕ)) 0 (by norm_num) (by norm_num),
    jsRound_eq ((1000 - 495) / 1000 * (100 : ℕ)) 51 (by norm_num) (by norm_num),
    jsRound_eq ((1000 - 0) / 1000 * (100 : ℕ)) 100 (by norm_num) (by norm_num)]
  norm_num

/-- Counterexample to C3 as stated: this object's pixel box extends
past the right edge of the 100 × 100 canvas (x + w = 101 > 100), yet
the aligner accepts the batch instead of rejecting the object. -/
theorem C3_reject_outside_counterexample :
    (100 : ℤ) <
      (pixelBox 100 100 fixtureObjOverhang).x +
        (pixelBox 100 100 fixtureObjOverhang).w ∧
    (alignMasksToOriginal trivialHost [fixtureObjOverhang] fixtureImg100).isOk = true := by
  constructor
  · rw [fixture_pixelBox_overhang]
    norm_num
  · have h1 : ∃ r, alignOne trivialHost 100 100 0 fixtureObjOverhang = Except.ok r := by
      simp only [alignOne, fixture_pixelBox_overhang]
      norm_num
    obtain ⟨r, hr⟩ := h1
    have h2 : alignMasksToOriginal trivialHost [fixtureObjOverhang] fixtureImg100 =
        Except.ok [r] := by
      rw [alignMasksToOriginal, if_neg (by simp)]
      simp only [fixtureImg100]
      norm_num
      rw [alignAll, hr, except_bind_ok, alignAll, except_bind_ok]
    rw [h2]
    rfl

/-- The area comparator used by the hit test is transitive. -/
theorem areaLe_trans (a b c : SegmentObject)
    (h1 : decide (calculateBoxArea a ≤ calculateBoxArea b) = true)
    (h2 : decide (calculateBoxArea b ≤ calculateBoxArea c) = true) :
    decide (calculateBoxArea a ≤ calculateBoxArea c) = true := by
  simp only [decide_eq_true_eq] at h1 h2 ⊢
  exact le_trans h1 h2

/-- The area comparator used by the hit test is total. -/
theorem areaLe_total (a b : SegmentObject) :
    (decide (calculateBoxArea a ≤ calculateBoxArea b) ||
      decide (calculateBoxArea b ≤ calculateBoxArea a)) = true := by
  simp only [Bool.or_eq_true, decide_eq_true_eq]
  exact le_total _ _

/-- C6.  The hit test returns no hit — and the click leaves the
selection unchanged — exactly when no object's pixel-space box
contains the pointer; a returned hit contains the pointer and has
minimal normalized area among the containing objects; and an object
containing the pointer whose area is strictly below every other
containing object's area is the object returned. -/
theorem C6_hit_test (objects : List SegmentObject) (w h : ℕ) (x y : ℚ)
    (sel : List SegmentObject) :
    (handleClickHit objects w h x y = none ↔
      ∀ o ∈ objects, containsPoint w h x y o = false) ∧
    (∀ o, handleClickHit objects w h x y = some o →
      o ∈ objects ∧ containsPoint w h x y o = true ∧
      ∀ o2 ∈ objects, containsPoint w h x y o2 = true →
        calculateBoxArea o ≤ calculateBoxArea o2) ∧
    (∀ X ∈ objects, containsPoint w h x y X = true →
      (∀ Y ∈ objects, containsPoint w h x y Y = true → Y ≠ X →
        calculateBoxArea X < calculateBoxArea Y) →
      handleClickHit objects w h x y = some X) ∧
    ((∀ o ∈ objects, containsPoint w h x y o = false) →
      clickUpdate objects w h x y sel = sel) := by
  have hsorted := List.sorted_mergeSort areaLe_trans areaLe_total
    (objects.filter (containsPoint w h x y))
  have hmin : ∀ o, handleClickHit objects w h x y = some o →
      o ∈ objects ∧ containsPoint w h x y o = true ∧
      ∀ o2 ∈ objects, containsPoint w h x y o2 = true →
        calculateBoxArea o ≤ calculateBoxArea o2 := by
    intro o ho
    rw [handleClickHit] at ho
    cases hs : (objects.filter (containsPoint w h x y)).mergeSort
        (fun a b => decide (calculateBoxArea a ≤ calculateBoxArea b)) with
    | nil => rw [hs] at ho; exact absurd ho (by simp)
    | cons a t =>
        rw [hs] at ho
        simp only [List.head?_cons, Option.some.injEq] at ho
        cases ho
        have hmem : o ∈ objects.filter (containsPoint w h x y) :=
          List.mem_mergeSort.mp (by rw [hs]; exact List.mem_cons_self _ _)
        have hpair := hsorted
        rw [hs] at hpair
        refine ⟨(List.mem_filter.mp hmem).1, (List.mem_filter.mp hmem).2, ?_⟩
        intro o2 ho2 hc2
        have hmem2 : o2 ∈ objects.filter (containsPoint w h x y) :=
          List.mem_filter.mpr ⟨ho2, hc2⟩
        have hin2 : o2 ∈ o :: t := by
          rw [← hs]; exact List.mem_mergeSort.mpr hmem2
        rcases List.mem_cons.mp hin2 with rfl | hin
        · exact le_refl _
        · have := (List.pairwise_cons.mp hpair).1 o2 hin
          simpa using this
  have hnone : handleClickHit objects w h x y = none ↔
      ∀ o ∈ objects, containsPoint w h x y o = false := by
    rw [handleClickHit, List.head?_eq_none_iff]
    constructor
    · intro hs o ho
      by_contra hct
      rw [Bool.not_eq_false] at hct
      have hmem : o ∈ objects.filter (containsPoint w h x y) :=
        List.mem_filter.mpr ⟨ho, hct⟩
      have hmem2 : o ∈ (objects.filter (containsPoint w h x y)).mergeSort
          (fun a b => decide (calculateBoxArea a ≤ calculateBoxArea b)) :=
        List.mem_mergeSort.mpr hmem
      rw [hs] at hmem2
      exact absurd hmem2 (by simp)
    · intro hall
      have hfil : objects.filter (containsPoint w h x y) = [] :=
        List.filter_eq_nil_iff.mpr (by intro a ha; simp [hall a ha])
      rw [hfil, List.mergeSort_nil]
  refine ⟨hnone, hmin, ?_, ?_⟩
  · intro X hX hcX hminX
    cases hhit : handleClickHit objects w h x y with
    | none =>
        rw [hnone] at hhit
        exact absurd (hhit X hX) (by simp [hcX])
    | some a =>
        obtain ⟨haobj, hca, hale⟩ := hmin a hhit
        by_cases hax : a = X
        · rw [← hax]
        · have h1 := hminX a haobj hca hax
          have h2 := hale X hX hcX
          exact absurd (lt_of_le_of_lt h2 h1) (lt_irrefl _)
  · intro hall
    rw [clickUpdate, hnone.mpr hall]

/-- Witness for C6: in a concrete two-object list whose boxes overlap
at the pointer, the smaller-area object is hit, and on a concrete
empty object list the click leaves the selection unchanged. -/
theorem C6_hit_test_witness :
    handleClickHit [fixtureObjSmall, fixtureObjFull] 100 100 10 10 =
      some fixtureObjSmall ∧
    clickUpdate [] 100 100 10 10 [fixtureObjSmall] = [fixtureObjSmall] := by
  constructor
  · apply (C6_hit_test [fixtureObjSmall, fixtureObjFull] 100 100 10 10 []).2.2.1
    · simp
    · norm_num [containsPoint, fixtureObjSmall]
    · intro Y hY hcY hne
      rcases List.mem_cons.mp hY with rfl | hY2
      · exact absurd rfl hne
      · rcases List.mem_singleton.mp hY2 with rfl
        norm_num [calculateBoxArea, fixtureObjSmall, fixtureObjFull, max_def]
  · exact (C6_hit_test [] 100 100 10 10 [fixtureObjSmall]).2.2.2 (by simp)

/-- The per-object mask-file error never coincides with the
no-objects error, whatever the index. -/
theorem invalidMask_ne_noObjects (s : String) :
    ("Invalid mask file generated for object " ++ s) ≠ noObjectsMessage := by
  intro h
  have h2 := congrArg (fun t => t.data.head?) h
  simp only [String.data_append] at h2
  rw [List.head?_append] at h2
  simp [noObjectsMessage] at h2

/-- The only errors `dataURLtoFile` can raise. -/
theorem dataURLtoFile_error_cases (atobFn : String → Option (List ℕ))
    (decodeImage : List ℕ → Raster) (dataurl filename : String) (e : String)
    (h : dataURLtoFile atobFn decodeImage dataurl filename = Except.error e) :
    e = "Invalid data URL" ∨ e = "Could not parse MIME type from data URL" ∨
      e = "InvalidCharacterError" := by
  rw [dataURLtoFile] at h
  split at h
  · exact Or.inl (by simpa using h.symm)
  · split at h
    · exact Or.inr (Or.inl (by simpa using h.symm))
    · split at h
      · exact Or.inr (Or.inl (by simpa using h.symm))
      · split at h
        · exact Or.inr (Or.inr (by simpa using h.symm))
        · exact absurd h (by simp)

set_option maxRecDepth 4096 in
/-- No error raised while building segment objects is the no-objects
error. -/
theorem buildAll_error_ne (atobFn : String → Option (List ℕ))
    (decodeImage : List ℕ → Raster) :
    ∀ (index : ℕ) (items : List ParsedItem) (e : String),
      buildAllSegmentObjects atobFn decodeImage index items = Except.error e →
      e ≠ noObjectsMessage := by
  have hone : ∀ (index : ℕ) (item : ParsedItem) (e : String),
      buildSegmentObject atobFn decodeImage index item = Except.error e →
      e ≠ noObjectsMessage := by
    intro index item e h
    rw [buildSegmentObject] at h
    cases hd : dataURLtoFile atobFn decodeImage (normalizeMaskDataUrl item.mask)
        ("mask_" ++ toString index ++ ".png") with
    | error e2 =>
        rw [hd, except_bind_error, Except.error.injEq] at h
        subst h
        rcases dataURLtoFile_error_cases _ _ _ _ e2 hd with rfl | rfl | rfl <;>
          simp [noObjectsMessage]
    | ok f =>
        rw [hd, except_bind_ok] at h
        by_cases hv : validateMaskFile f
        · rw [if_neg (by simp [hv])] at h
          exact absurd h (by simp)
        · rw [if_pos (by simp [hv]), Except.error.injEq] at h
          subst h
          exact invalidMask_ne_noObjects _
  intro index items
  induction items generalizing index with
  | nil => intro e h; exact absurd h (by simp [buildAllSegmentObjects])
  | cons item rest ih =>
      intro e h
      rw [buildAllSegmentObjects] at h
      cases hb : buildSegmentObject atobFn decodeImage index item with
      | error e2 =>
          rw [hb, except_bind_error] at h
          rw [Except.error.injEq] at h
          subst h
          exact hone index item e2 hb
      | ok o =>
          rw [hb, except_bind_ok] at h
          cases hr : buildAllSegmentObjects atobFn decodeImage (index + 1) rest with
          | error e3 =>
              rw [hr, except_bind_error, Except.error.injEq] at h
              subst h
              exact ih (index + 1) e3 hr
          | ok os => rw [hr, except_bind_ok] at h; exact absurd h (by simp)

/-- A successful object build yields one object per parsed entry. -/
theorem buildAll_ok_length (atobFn : String → Option (List ℕ))
    (decodeImage : List ℕ → Raster) :
    ∀ (index : ℕ) (items : List ParsedItem) (res : List SegmentObject),
      buildAllSegmentObjects atobFn decodeImage index items = Except.ok res →
      res.length = items.length := by
  intro index items
  induction items generalizing index with
  | nil =>
      intro res h
      rw [buildAllSegmentObjects, Except.ok.injEq] at h
      subst h
      rfl
  | cons item rest ih =>
      intro res h
      rw [buildAllSegmentObjects] at h
      cases hb : buildSegmentObject atobFn decodeImage index item with
      | error e => rw [hb, except_bind_error] at h; exact absurd h (by simp)
      | ok o =>
          rw [hb, except_bind_ok] at h
          cases hr : buildAllSegmentObjects atobFn decodeImage (index + 1) rest with
          | error e => rw [hr, except_bind_error] at h; exact absurd h (by simp)
          | ok os =>
              rw [hr, except_bind_ok, Except.ok.injEq] at h
              subst h
              simp [ih (index + 1) os hr]

/-- C9.  The parser maps empty response text, and any text on which
the structured parse throws while the regex fallback recovers nothing,
to the empty list rather than an error; the segment operation raises
the no-objects error exactly when the validated entry list is empty;
and when it succeeds it returns one `SegmentObject` per validated
entry. -/
theorem C9_parser_empty_and_no_objects
    (jsonParse : String → Option ParsedJson) (regexExtract : String → List ParsedItem)
    (atobFn : String → Option (List ℕ)) (decodeImage : List ℕ → Raster)
    (responseText : String) :
    parseSegmentationResponse jsonParse regexExtract "" = [] ∧
    (jsonParse (stripMarkdownFence responseText) = none →
      regexExtract responseText = [] →
      parseSegmentationResponse jsonParse regexExtract responseText = []) ∧
    (segmentImageFromResponse jsonParse regexExtract atobFn decodeImage responseText =
        Except.error noObjectsMessage ↔
      (parseSegmentationResponse jsonParse regexExtract responseText).filter
        (fun segment => isValidNormalizedBox segment.box) = []) ∧
    (∀ res,
      segmentImageFromResponse jsonParse regexExtract atobFn decodeImage responseText =
        Except.ok res →
      res.length =
        ((parseSegmentationResponse jsonParse regexExtract responseText).filter
          (fun segment => isValidNormalizedBox segment.box)).length) := by
  refine ⟨by rfl, ?_, ?_, ?_⟩
  · intro h1 h2
    by_cases ht : responseText = ""
    · simp [parseSegmentationResponse, ht]
    · rw [parseSegmentationResponse, if_neg ht]
      dsimp only
      rw [h1, h2]
  · constructor
    · intro h
      by_contra hne
      rw [segmentImageFromResponse] at h
      rw [if_neg (by simpa [List.length_eq_zero] using hne)] at h
      exact buildAll_error_ne atobFn decodeImage 0 _ _ h rfl
    · intro h
      rw [segmentImageFromResponse]
      rw [if_pos (by rw [h]; rfl)]
  · intro res h
    rw [segmentImageFromResponse] at h
    split at h
    · exact absurd h (by simp)
    · exact buildAll_ok_length atobFn decodeImage 0 _ res h

/-- Witness for C9: with concrete host parsers on which the
structured parse throws and the regex recovers nothing, the text
`hello` parses to no entries and the segment operation fails with the
no-objects error. -/
theorem C9_parser_empty_and_no_objects_witness :
    parseSegmentationResponse (fun _ => none) (fun _ => []) "hello" = [] ∧
    segmentImageFromResponse (fun _ => none) (fun _ => []) (fun _ => some [1])
      (fun _ => constRaster 1 1 ⟨0, 0, 0, 0⟩) "hello" =
      Except.error noObjectsMessage := by
  have h := C9_parser_empty_and_no_objects (fun _ => none) (fun _ => [])
    (fun _ => some [1]) (fun _ => constRaster 1 1 ⟨0, 0, 0, 0⟩) "hello"
  have hp : parseSegmentationResponse (fun _ => none) (fun _ => []) "hello" = [] :=
    h.2.1 rfl rfl
  exact ⟨hp, h.2.2.1.mpr (by rw [hp]; rfl)⟩

/-- Witness for C8: a concrete one-element input is returned as the
very same file value. -/
theorem C8_single_mask_passthrough_witness :
    combineMaskFiles trivialHost 0 [fixtureFile] = Except.ok fixtureFile :=
  C8_single_mask_passthrough trivialHost 0 fixtureFile

/-- Witness for C10: the empty batch aligns to the empty list even
against a concrete original image with unreadable (zero) pixel
dimensions. -/
theorem C10_empty_alignment_witness :
    alignMasksToOriginal trivialHost [] fixtureImgZero = Except.ok [] :=
  C10_empty_alignment trivialHost fixtureImgZero

end PixPen
